import Mathlib

/-!
Verification of the wide/deep/cross structured-data notebook
(`examples/structured_data/ipynb/wide_deep_cross_networks.ipynb`).

The notebook is a linear pipeline: download a 55-column headerless CSV,
reshape it into a 13-column dataframe (decoding the two binary-encoded
categorical blocks), split into train/test, build three Keras models
(baseline, Wide and Deep, Deep and Cross) and run each through
compile/fit/evaluate.  The definitions below are a shallow embedding of
that pipeline: dataframes become lists of rows, the random split becomes
an explicit per-row draw, and the Keras layer graph becomes a symbolic
tensor expression with a width (last-dimension) function.
-/

namespace WideDeepCross

/-! ## Dataset metadata (cells 8 and 14 of the notebook) -/

/-- `soil_type_values = [f"soil_type_{idx+1}" for idx in range(40)]`. -/
def soil_type_values : List String :=
  (List.range 40).map (fun idx => "soil_type_" ++ toString (idx + 1))

/-- `wilderness_area_values = [f"area_type_{idx+1}" for idx in range(4)]`. -/
def wilderness_area_values : List String :=
  (List.range 4).map (fun idx => "area_type_" ++ toString (idx + 1))

/-- The fixed 13-entry column header assigned to the reshaped dataframe. -/
def CSV_HEADER : List String :=
  ["Elevation", "Aspect", "Slope", "Horizontal_Distance_To_Hydrology",
   "Vertical_Distance_To_Hydrology", "Horizontal_Distance_To_Roadways",
   "Hillshade_9am", "Hillshade_Noon", "Hillshade_3pm",
   "Horizontal_Distance_To_Fire_Points", "Wilderness_Area", "Soil_Type",
   "Cover_Type"]

/-- `TARGET_FEATURE_NAME = "Cover_Type"`. -/
def TARGET_FEATURE_NAME : String := "Cover_Type"

/-- `TARGET_FEATURE_LABELS = ["0", ..., "6"]`. -/
def TARGET_FEATURE_LABELS : List String := ["0", "1", "2", "3", "4", "5", "6"]

/-- The ten numeric feature names (cell 14 order). -/
def NUMERIC_FEATURE_NAMES : List String :=
  ["Aspect", "Elevation", "Hillshade_3pm", "Hillshade_9am", "Hillshade_Noon",
   "Horizontal_Distance_To_Fire_Points", "Horizontal_Distance_To_Hydrology",
   "Horizontal_Distance_To_Roadways", "Slope",
   "Vertical_Distance_To_Hydrology"]

/-- The two categorical feature names, in the dict-insertion order of
`CATEGORICAL_FEATURES_WITH_VOCABULARY`. -/
def CATEGORICAL_FEATURE_NAMES : List String := ["Soil_Type", "Wilderness_Area"]

/-- `FEATURE_NAMES = NUMERIC_FEATURE_NAMES + CATEGORICAL_FEATURE_NAMES`. -/
def FEATURE_NAMES : List String :=
  NUMERIC_FEATURE_NAMES ++ CATEGORICAL_FEATURE_NAMES

/-- `NUM_CLASSES = len(TARGET_FEATURE_LABELS)`. -/
def NUM_CLASSES : Nat := TARGET_FEATURE_LABELS.length

/-- `hidden_units = [32, 32]` (cell 18). -/
def hidden_units : List Nat := [32, 32]

/-- The fixed download URL of the raw dataset (cell 6). -/
def data_url : String :=
  "https://archive.ics.uci.edu/ml/machine-learning-databases/covtype/covtype.data.gz"

/-- `pd.read_csv(data_url, header=None)`: the raw CSV is read with no
header row, so all 55 columns are unlabeled. -/
def raw_read_has_header : Bool := false

/-! ## Decoding the binary-encoded categorical blocks (cell 8)

`x.to_numpy().nonzero()[0][0]` is the index of the first nonzero entry of
the row slice; indexing an empty nonzero array raises, which the embedding
renders as `Option.none`. -/

/-- Index of the first nonzero entry of a row slice (`nonzero()[0][0]`);
`none` when every entry is zero (the Python code raises `IndexError`). -/
def firstNonzeroIdx : List Int → Option Nat
  | [] => none
  | z :: zs =>
      if z ≠ 0 then some 0 else (firstNonzeroIdx zs).map (· + 1)

/-- `vocab[0::1][x.to_numpy().nonzero()[0][0]]`: look the first nonzero
index up in the vocabulary name list (`vocab[0::1]` is just `vocab`). -/
def decodeBlock (vocab : List String) (block : List Int) : Option String :=
  (firstNonzeroIdx block).bind (fun i => vocab[i]?)

/-! ## Reshaping a raw row (cell 8)

A raw row is a list of 55 integers.  `raw_data.loc[:, a:b]` in pandas is
inclusive on both ends, so `loc[:, 0:9]` is columns 0..9, `loc[:, 10:13]`
columns 10..13 and `loc[:, 14:53]` columns 14..53.  A reshaped row is a
13-cell record laid out in `CSV_HEADER` order, and the label is remapped
by `data["Cover_Type"] = data["Cover_Type"] - 1`. -/

/-- A cell of the reshaped dataframe: numeric columns and the label stay
integers, the two decoded categorical columns are strings. -/
inductive Cell where
  | int (z : Int)
  | str (s : String)
  deriving DecidableEq, Repr

/-- Reshape one raw 55-column row into the 13-cell record
`[cols 0..9, wilderness_area, soil_type, label - 1]`; fails when a
categorical block is all zero or the row is too short. -/
def reshapeRow (r : List Int) : Option (List Cell) :=
  match decodeBlock wilderness_area_values ((r.drop 10).take 4),
        decodeBlock soil_type_values ((r.drop 14).take 40),
        r[54]? with
  | some wa, some st, some lab =>
      some (((r.take 10).map Cell.int) ++
            [Cell.str wa, Cell.str st, Cell.int (lab - 1)])
  | _, _, _ => none

/-- Reshape the whole raw table, keeping only the successfully reshaped
rows abstractly: the pipeline applies `reshapeRow` to every row. -/
def reshapeTable (raw : List (List Int)) : List (Option (List Cell)) :=
  raw.map reshapeRow

/-! ## Train/test split (cell 10)

`data.groupby("Cover_Type")` partitions the reshaped rows by their
`Cover_Type` value; inside each group `np.random.rand(len(group)) <= 0.85`
draws one uniform number per row, selecting the row for the train split
exactly when the draw is `<= 0.85` and for the test split otherwise.  The
embedding carries each row's realized draw alongside the row, and the
final `.sample(frac=1)` shuffles are permutations, so every multiset-level
statement below is invariant under them. -/

/-- `pandas.unique`-style deduplication keeping first occurrences. -/
def uniqueList {α : Type} [DecidableEq α] : List α → List α
  | [] => []
  | x :: xs => x :: (uniqueList xs).filter (fun y => y ≠ x)

/-- Group a list by a key, one group per distinct key value: the embedding
of `groupby` (group order is irrelevant to every claim below). -/
def groupsBy {α β : Type} [DecidableEq β] (key : α → β) (rows : List α) :
    List (List α) :=
  (uniqueList (rows.map key)).map (fun v => rows.filter (fun r => key r = v))

/-- The `Cover_Type` value of a 13-cell reshaped record (column 12). -/
def coverTypeOf (r : List Cell) : Cell := r.getD 12 (Cell.int 0)

/-- A reshaped row paired with its realized `np.random.rand` draw. -/
abbrev DrawnRow : Type := List Cell × ℚ

/-- `train_splits`, generically: group `rows` by `key`, and inside each
group keep the rows whose realized draw is `<= 0.85`
(`random_selection = np.random.rand(len(group_data.index)) <= 0.85`),
then concatenate the per-group selections (`pd.concat(train_splits)`). -/
def trainSplit {α β : Type} [DecidableEq α] [DecidableEq β] (key : α → β)
    (draw : α → ℚ) (rows : List α) : List α :=
  ((groupsBy key rows).map
    (fun g => g.filter (fun r => draw r ≤ 85/100))).flatten

/-- `test_splits`, generically: the complementary selection
(`group_data[~random_selection]`). -/
def testSplit {α β : Type} [DecidableEq α] [DecidableEq β] (key : α → β)
    (draw : α → ℚ) (rows : List α) : List α :=
  ((groupsBy key rows).map
    (fun g => g.filter (fun r => ¬ (draw r ≤ 85/100)))).flatten

/-- `train_data` before its final shuffle: the split of the reshaped rows
grouped by their `Cover_Type`, each row carrying its own draw. -/
def trainRows (rows : List DrawnRow) : List DrawnRow :=
  trainSplit (fun p => coverTypeOf p.1) (fun p => p.2) rows

/-- `test_data` before its final shuffle. -/
def testRows (rows : List DrawnRow) : List DrawnRow :=
  testSplit (fun p => coverTypeOf p.1) (fun p => p.2) rows

/-! ## Categorical vocabularies (cell 14)

`CATEGORICAL_FEATURES_WITH_VOCABULARY = {"Soil_Type":
list(data["Soil_Type"].unique()), "Wilderness_Area":
list(data["Wilderness_Area"].unique())}` — the vocabularies are the
distinct values of the columns of `data`, the full reshaped dataframe
built in cell 8 (cell 14 runs after the cell 10 split but reads `data`,
not `train_data`). -/

/-- The `Soil_Type` column (column 11) of a list of reshaped records. -/
def soilColumn (rows : List (List Cell)) : List String :=
  rows.map (fun r => match r.getD 11 (Cell.int 0) with
    | Cell.str s => s
    | Cell.int _ => "")

/-- The `Wilderness_Area` column (column 10) of reshaped records. -/
def areaColumn (rows : List (List Cell)) : List String :=
  rows.map (fun r => match r.getD 10 (Cell.int 0) with
    | Cell.str s => s
    | Cell.int _ => "")

/-- The vocabulary dictionary of cell 14, as a function of the two columns
of the full reshaped dataframe `data`. -/
def CATEGORICAL_FEATURES_WITH_VOCABULARY (soilCol areaCol : List String) :
    String → List String :=
  fun name =>
    if name = "Soil_Type" then uniqueList soilCol
    else if name = "Wilderness_Area" then uniqueList areaCol
    else []

/-! ## StringLookup encoding (cell 22)

`encode_inputs` builds, for each categorical feature,
`layers.StringLookup(vocabulary=vocabulary, mask_token=None,
num_oov_indices=0, output_mode="int" if use_embedding else "binary")`. -/

/-- The constructor arguments of the `StringLookup` layer that
`encode_inputs` creates. -/
structure StringLookupConfig where
  vocabulary : List String
  mask_token : Option String
  num_oov_indices : Nat
  deriving DecidableEq

/-- Index of the first occurrence of `v` in `vocab`; `none` if absent. -/
def indexInVocab (vocab : List String) (v : String) : Option Nat :=
  match vocab with
  | [] => none
  | w :: ws => if w = v then some 0 else (indexInVocab ws v).map (· + 1)

/-- Modelled from the spec: the Keras `StringLookup` layer maps a string
to its integer index.  A mask token, when present, occupies index 0 ahead
of the vocabulary; out-of-vocabulary values are hashed into the
`num_oov_indices` leading OOV buckets (the hash is abstracted as a length
hash), and with `num_oov_indices = 0` an unseen value has no index at all
(the layer raises an error), rendered here as `none`. -/
def stringLookupIndex (cfg : StringLookupConfig) (v : String) : Option Nat :=
  let fullVocab :=
    (match cfg.mask_token with | some m => [m] | none => []) ++ cfg.vocabulary
  match indexInVocab fullVocab v with
  | some i => some (cfg.num_oov_indices + i)
  | none =>
      if cfg.num_oov_indices = 0 then none
      else some (v.length % cfg.num_oov_indices)

/-- The exact `StringLookup` configuration built by `encode_inputs` for a
categorical feature with vocabulary `vocab`: no mask token, zero OOV
indices. -/
def encodeLookupConfig (vocab : List String) : StringLookupConfig :=
  { vocabulary := vocab, mask_token := none, num_oov_indices := 0 }

/-! ## The symbolic layer graph (cells 20, 22, 24, 29, 34)

A Keras functional-API graph over scalar string/float inputs is embedded
as a tensor expression; `width` is the last (and only) feature dimension
of each node.  Elementwise `*` and `+` are zipWith-style, so their width
is the minimum of the operand widths. -/

/-- Activation of a `Dense` layer. -/
inductive Activation where
  | linear
  | relu
  | softmax
  deriving DecidableEq, Repr

/-- Symbolic tensor expressions: the layer graph the notebook builds.
`input` is a scalar feature after `expand_dims` (width 1); `onehot` is the
`StringLookup` in `"binary"` output mode; `embed` is the `StringLookup` in
`"int"` mode followed by an `Embedding(vocabSize, dims)`. -/
inductive Tensor where
  | input (name : String)
  | onehot (vocab : List String) (t : Tensor)
  | embed (vocabSize dims : Nat) (t : Tensor)
  | dense (units : Nat) (act : Activation) (t : Tensor)
  | batchNorm (t : Tensor)
  | reluLayer (t : Tensor)
  | dropout (rate : ℚ) (t : Tensor)
  | mul (a b : Tensor)
  | add (a b : Tensor)
  | concat (a b : Tensor)
  deriving DecidableEq

/-- Last feature dimension of a tensor expression. -/
def width : Tensor → Nat
  | Tensor.input _ => 1
  | Tensor.onehot vocab _ => vocab.length
  | Tensor.embed _ dims _ => dims
  | Tensor.dense units _ _ => units
  | Tensor.batchNorm t => width t
  | Tensor.reluLayer t => width t
  | Tensor.dropout _ t => width t
  | Tensor.mul a b => min (width a) (width b)
  | Tensor.add a b => min (width a) (width b)
  | Tensor.concat a b => width a + width b

/-- `layers.concatenate` over a nonempty list, folded pairwise. -/
def concatAll : List Tensor → Tensor
  | [] => Tensor.input ""
  | t :: ts => ts.foldl Tensor.concat t

/-- `dropout_rate = 0.1` (cell 18). -/
def dropout_rate : ℚ := 1/10

/-- One feature's encoding in `encode_inputs`, parameterized by the
vocabulary dictionary `V` (a numeric feature is used as-is after
`expand_dims`; a categorical feature is one-hot encoded, or embedded with
`int(math.sqrt(len(vocabulary)))` dimensions when `use_embedding`). -/
def encodeFeature (V : String → List String) (use_embedding : Bool)
    (name : String) : Tensor :=
  if name ∈ CATEGORICAL_FEATURE_NAMES then
    let vocab := V name
    if use_embedding then
      Tensor.embed vocab.length (Nat.sqrt vocab.length) (Tensor.input name)
    else
      Tensor.onehot vocab (Tensor.input name)
  else
    Tensor.input name

/-- `encode_inputs`: encode every feature of `FEATURE_NAMES` (the
iteration order of the `inputs` dict) and concatenate. -/
def encode_inputs (V : String → List String) (use_embedding : Bool) :
    Tensor :=
  concatAll (FEATURE_NAMES.map (encodeFeature V use_embedding))

/-- One hidden block of the deep stack:
`Dense(units)` then `BatchNormalization` then `ReLU` then
`Dropout(dropout_rate)`. -/
def deepBlock (f : Tensor) (units : Nat) : Tensor :=
  Tensor.dropout dropout_rate
    (Tensor.reluLayer (Tensor.batchNorm (Tensor.dense units Activation.linear f)))

/-- `create_baseline_model`: one-hot encoding, the hidden stack over
`hidden_units`, and a final `Dense(NUM_CLASSES, activation="softmax")`. -/
def create_baseline_model (V : String → List String) : Tensor :=
  Tensor.dense NUM_CLASSES Activation.softmax
    (hidden_units.foldl deepBlock (encode_inputs V false))

/-- The wide branch of `create_wide_and_deep_model`: the sparse encoding
followed by a single `BatchNormalization`. -/
def wideBranch (V : String → List String) : Tensor :=
  Tensor.batchNorm (encode_inputs V false)

/-- The deep branch of `create_wide_and_deep_model` (also the deep branch
of `create_deep_and_cross_model`): the embedded encoding through the
hidden stack. -/
def deepBranch (V : String → List String) : Tensor :=
  hidden_units.foldl deepBlock (encode_inputs V true)

/-- `create_wide_and_deep_model`: concatenate the two branches and apply
the final `Dense(NUM_CLASSES, activation="softmax")`. -/
def create_wide_and_deep_model (V : String → List String) : Tensor :=
  Tensor.dense NUM_CLASSES Activation.softmax
    (Tensor.concat (wideBranch V) (deepBranch V))

/-- The cross recurrence of `create_deep_and_cross_model`, unrolled `k`
times: `cross_0 = x0` and
`cross_{k+1} = x0 * Dense(cross_k.shape[-1])(cross_k) + cross_k`. -/
def crossTensor (V : String → List String) : Nat → Tensor
  | 0 => encode_inputs V true
  | k + 1 =>
      let c := crossTensor V k
      Tensor.add
        (Tensor.mul (encode_inputs V true)
          (Tensor.dense (width c) Activation.linear c)) c

/-- The cross branch: the recurrence iterated once per entry of
`hidden_units` (`for _ in hidden_units`), then `BatchNormalization`. -/
def crossBranch (V : String → List String) : Tensor :=
  Tensor.batchNorm (crossTensor V hidden_units.length)

/-- `create_deep_and_cross_model`: concatenate the cross and deep branches
and apply the final `Dense(NUM_CLASSES, activation="softmax")`. -/
def create_deep_and_cross_model (V : String → List String) : Tensor :=
  Tensor.dense NUM_CLASSES Activation.softmax
    (Tensor.concat (crossBranch V) (deepBranch V))

/-! ## Structural observations on the layer graph -/

/-- Number of `Dense` layers in a tensor expression. -/
def countDense : Tensor → Nat
  | Tensor.input _ => 0
  | Tensor.onehot _ t => countDense t
  | Tensor.embed _ _ t => countDense t
  | Tensor.dense _ _ t => countDense t + 1
  | Tensor.batchNorm t => countDense t
  | Tensor.reluLayer t => countDense t
  | Tensor.dropout _ t => countDense t
  | Tensor.mul a b => countDense a + countDense b
  | Tensor.add a b => countDense a + countDense b
  | Tensor.concat a b => countDense a + countDense b

/-- Number of `ReLU` layers in a tensor expression. -/
def countRelu : Tensor → Nat
  | Tensor.input _ => 0
  | Tensor.onehot _ t => countRelu t
  | Tensor.embed _ _ t => countRelu t
  | Tensor.dense _ _ t => countRelu t
  | Tensor.batchNorm t => countRelu t
  | Tensor.reluLayer t => countRelu t + 1
  | Tensor.dropout _ t => countRelu t
  | Tensor.mul a b => countRelu a + countRelu b
  | Tensor.add a b => countRelu a + countRelu b
  | Tensor.concat a b => countRelu a + countRelu b

/-- Number of `BatchNormalization` layers in a tensor expression. -/
def countBatchNorm : Tensor → Nat
  | Tensor.input _ => 0
  | Tensor.onehot _ t => countBatchNorm t
  | Tensor.embed _ _ t => countBatchNorm t
  | Tensor.dense _ _ t => countBatchNorm t
  | Tensor.batchNorm t => countBatchNorm t + 1
  | Tensor.reluLayer t => countBatchNorm t
  | Tensor.dropout _ t => countBatchNorm t
  | Tensor.mul a b => countBatchNorm a + countBatchNorm b
  | Tensor.add a b => countBatchNorm a + countBatchNorm b
  | Tensor.concat a b => countBatchNorm a + countBatchNorm b

/-- Number of `Embedding` encodings in a tensor expression. -/
def countEmbed : Tensor → Nat
  | Tensor.input _ => 0
  | Tensor.onehot _ t => countEmbed t
  | Tensor.embed _ _ t => countEmbed t + 1
  | Tensor.dense _ _ t => countEmbed t
  | Tensor.batchNorm t => countEmbed t
  | Tensor.reluLayer t => countEmbed t
  | Tensor.dropout _ t => countEmbed t
  | Tensor.mul a b => countEmbed a + countEmbed b
  | Tensor.add a b => countEmbed a + countEmbed b
  | Tensor.concat a b => countEmbed a + countEmbed b

/-- Number of one-hot (`StringLookup` in binary mode) encodings. -/
def countOnehot : Tensor → Nat
  | Tensor.input _ => 0
  | Tensor.onehot _ t => countOnehot t + 1
  | Tensor.embed _ _ t => countOnehot t
  | Tensor.dense _ _ t => countOnehot t
  | Tensor.batchNorm t => countOnehot t
  | Tensor.reluLayer t => countOnehot t
  | Tensor.dropout _ t => countOnehot t
  | Tensor.mul a b => countOnehot a + countOnehot b
  | Tensor.add a b => countOnehot a + countOnehot b
  | Tensor.concat a b => countOnehot a + countOnehot b

/-- Number of `Dropout` layers in a tensor expression. -/
def countDropout : Tensor → Nat
  | Tensor.input _ => 0
  | Tensor.onehot _ t => countDropout t
  | Tensor.embed _ _ t => countDropout t
  | Tensor.dense _ _ t => countDropout t
  | Tensor.batchNorm t => countDropout t
  | Tensor.reluLayer t => countDropout t
  | Tensor.dropout _ t => countDropout t + 1
  | Tensor.mul a b => countDropout a + countDropout b
  | Tensor.add a b => countDropout a + countDropout b
  | Tensor.concat a b => countDropout a + countDropout b

/-- The input feature names a tensor expression reads, left to right. -/
def inputsOf : Tensor → List String
  | Tensor.input name => [name]
  | Tensor.onehot _ t => inputsOf t
  | Tensor.embed _ _ t => inputsOf t
  | Tensor.dense _ _ t => inputsOf t
  | Tensor.batchNorm t => inputsOf t
  | Tensor.reluLayer t => inputsOf t
  | Tensor.dropout _ t => inputsOf t
  | Tensor.mul a b => inputsOf a ++ inputsOf b
  | Tensor.add a b => inputsOf a ++ inputsOf b
  | Tensor.concat a b => inputsOf a ++ inputsOf b

/-! ## Numeric semantics of the cross recurrence (cell 34)

`Dense` on a rank-1 vector is an affine map; `x0 * x + cross` is
elementwise.  Each loop iteration consumes one freshly-initialized Dense
layer, so the parameters are a list of (kernel, bias) pairs, one per
iteration of `for _ in hidden_units`. -/

/-- Dot product of two rational vectors. -/
def dotProd (xs ys : List ℚ) : ℚ := (List.zipWith (· * ·) xs ys).sum

/-- One `Dense(units)` layer (no activation): kernel rows dotted with the
input, plus the bias; one output per (row, bias) pair. -/
def denseApply (W : List (List ℚ)) (b : List ℚ) (v : List ℚ) : List ℚ :=
  List.zipWith (fun row bi => dotProd row v + bi) W b

/-- One iteration of the cross loop:
`x = Dense(units)(cross); cross = x0 * x + cross`, elementwise. -/
def crossStep (x0 cross : List ℚ) (p : List (List ℚ) × List ℚ) : List ℚ :=
  let x := denseApply p.1 p.2 cross
  List.zipWith (· + ·) (List.zipWith (· * ·) x0 x) cross

/-- The cross recurrence over the whole parameter list, starting from
`cross = x0`. -/
def crossIter (x0 : List ℚ) (ps : List (List (List ℚ) × List ℚ)) :
    List ℚ :=
  ps.foldl (crossStep x0) x0

/-! ## The experiment driver as an effect trace (cells 16 and 18) -/

/-- `learning_rate = 0.001`. -/
def learning_rate : ℚ := 1/1000

/-- `batch_size = 265`. -/
def batch_size : Nat := 265

/-- `num_epochs = 1`. -/
def num_epochs : Nat := 1

/-- `train_data_file = "train_data.csv"`. -/
def train_data_file : String := "train_data.csv"

/-- `test_data_file = "test_data.csv"`. -/
def test_data_file : String := "test_data.csv"

/-- The optimizer handed to `model.compile`. -/
inductive Optimizer where
  | adam (lr : ℚ)
  | sgd (lr : ℚ)
  deriving DecidableEq

/-- The loss handed to `model.compile`. -/
inductive Loss where
  | sparseCategoricalCrossentropy
  | meanSquaredError
  deriving DecidableEq

/-- The externally observable steps `run_experiment` performs, in
program order.  `printAccuracy` is the one print that carries a computed
value (the evaluated test accuracy); `saveModel` exists in the effect
vocabulary so that its absence from the trace is a statement. -/
inductive Effect where
  | compile (opt : Optimizer) (loss : Loss)
  | makeDataset (file : String) (batch : Nat) (shuffle : Bool)
  | printMsg (s : String)
  | fit (file : String) (epochs : Nat)
  | evaluate (file : String)
  | printAccuracy
  | saveModel (file : String)
  deriving DecidableEq

/-- `run_experiment(model)` as its trace of effects, in source order:
compile, build the two datasets, announce, fit on the train dataset for
`num_epochs`, announce, evaluate on the test dataset, print the accuracy.
Nothing is written to disk and no model artifact is saved. -/
def run_experiment : List Effect :=
  [ Effect.compile (Optimizer.adam learning_rate)
      Loss.sparseCategoricalCrossentropy,
    Effect.makeDataset train_data_file batch_size true,
    Effect.makeDataset test_data_file batch_size false,
    Effect.printMsg "Start training the model...",
    Effect.fit train_data_file num_epochs,
    Effect.printMsg "Model training finished",
    Effect.evaluate test_data_file,
    Effect.printAccuracy ]

/-- Is an effect a `compile`? -/
def isCompile : Effect → Bool
  | Effect.compile _ _ => true
  | _ => false

/-- Is an effect a `fit`? -/
def isFit : Effect → Bool
  | Effect.fit _ _ => true
  | _ => false

/-- Is an effect an `evaluate`? -/
def isEvaluate : Effect → Bool
  | Effect.evaluate _ => true
  | _ => false

/-- Is an effect a model-artifact save? -/
def isSaveModel : Effect → Bool
  | Effect.saveModel _ => true
  | _ => false

/-- Does an effect emit a computed value to the outside (a data-carrying
print or a persisted artifact)? -/
def emitsValue : Effect → Bool
  | Effect.printAccuracy => true
  | Effect.saveModel _ => true
  | _ => false

/-! ## Concrete sample data (used to instantiate the theorems) -/

/-- A sample reshaped 13-cell record with the given `Soil_Type` value. -/
def exRecord (soilName : String) : List Cell :=
  List.replicate 10 (Cell.int 0) ++
    [Cell.str "area_type_1", Cell.str soilName, Cell.int 0]

/-- A two-row drawn dataset: the `soil_type_1` row draws 1/2 (train side)
and the `soil_type_2` row draws 9/10 (test side). -/
def exSplitData : List DrawnRow :=
  [(exRecord "soil_type_1", 1/2), (exRecord "soil_type_2", 9/10)]

/-- A sample raw 55-column row: zeros in the numeric block, wilderness
area 1, soil type 1, raw label 5. -/
def c3row : List Int :=
  List.replicate 10 0 ++ [1, 0, 0, 0] ++ (1 :: List.replicate 39 0) ++ [5]

/-! ## Softmax semantics (the final layer of every model) -/

/-- The softmax activation over a logit vector, as the framework computes
it on the final `Dense(NUM_CLASSES, activation="softmax")` layer. -/
noncomputable def softmax {n : Nat} (v : Fin n → ℝ) : Fin n → ℝ :=
  fun i => Real.exp (v i) / (Finset.univ.sum (fun j => Real.exp (v j)))

/-! ## Helper lemmas -/

theorem mem_uniqueList {α : Type} [DecidableEq α] (a : α) :
    ∀ l : List α, a ∈ uniqueList l ↔ a ∈ l := by
  intro l
  induction l with
  | nil => simp [uniqueList]
  | cons x xs ih =>
      by_cases hax : a = x
      · subst hax; simp [uniqueList]
      · simp only [uniqueList, List.mem_cons, List.mem_filter]
        constructor
        · rintro (h | ⟨h, _⟩)
          · exact Or.inl h
          · exact Or.inr (ih.mp h)
        · rintro (h | h)
          · exact Or.inl h
          · exact Or.inr ⟨ih.mpr h, by simpa using hax⟩

theorem nodup_uniqueList {α : Type} [DecidableEq α] :
    ∀ l : List α, (uniqueList l).Nodup := by
  intro l
  induction l with
  | nil => simp [uniqueList]
  | cons x xs ih =>
      simp only [uniqueList, List.nodup_cons]
      refine ⟨?_, List.Nodup.filter _ ih⟩
      intro hmem
      have := (List.mem_filter.mp hmem).2
      simp at this

theorem count_uniqueList {α : Type} [DecidableEq α] (a : α) (l : List α) :
    (uniqueList l).count a = if a ∈ l then 1 else 0 := by
  by_cases h : a ∈ l
  · simp only [h, if_true]
    exact List.count_eq_one_of_mem (nodup_uniqueList l) ((mem_uniqueList a l).mpr h)
  · simp only [h, if_false]
    exact List.count_eq_zero_of_not_mem (fun hc => h ((mem_uniqueList a l).mp hc))

theorem count_filter_decide {α : Type} [DecidableEq α] (p : α → Bool)
    (l : List α) (a : α) :
    (l.filter p).count a = if p a then l.count a else 0 := by
  induction l with
  | nil => simp
  | cons b bs ih =>
      by_cases hb : p b
      · by_cases hab : a = b
        · subst hab; simp [hb, List.count_cons, ih]
        · simp [hb, List.count_cons, ih, hab]
      · by_cases hab : a = b
        · subst hab; simp [hb, List.count_cons, ih]
        · simp [hb, List.count_cons, ih, hab]

theorem sum_map_ite_count {α : Type} [DecidableEq α] (b : α) (c : Nat)
    (ks : List α) :
    (ks.map (fun v => if b = v then c else 0)).sum = ks.count b * c := by
  induction ks with
  | nil => simp
  | cons k ks ih =>
      by_cases hbk : b = k
      · subst hbk; simp [List.count_cons, ih, Nat.add_mul, Nat.add_comm]
      · simp [List.count_cons, hbk, ih, Ne.symm hbk]

/-- Counting inside the grouped partition: the groups of `groupsBy`
jointly contain every row with its original multiplicity. -/
theorem count_flatten_groupsBy {α β : Type} [DecidableEq α] [DecidableEq β]
    (key : α → β) (rows : List α) (x : α) :
    ((groupsBy key rows).flatten).count x = rows.count x := by
  classical
  unfold groupsBy
  rw [List.count_flatten, List.map_map]
  have hmap : ∀ v, (rows.filter (fun r => decide (key r = v))).count x =
      if key x = v then rows.count x else 0 := by
    intro v
    simpa using count_filter_decide (fun r => decide (key r = v)) rows x
  have hcomp :
      (uniqueList (rows.map key)).map (List.count x ∘ fun v =>
        rows.filter (fun r => decide (key r = v))) =
      (uniqueList (rows.map key)).map (fun v =>
        if key x = v then rows.count x else 0) := by
    apply List.map_congr_left
    intro v _
    simpa using hmap v
  rw [hcomp, sum_map_ite_count]
  by_cases hx : x ∈ rows
  · have hk : key x ∈ rows.map key := List.mem_map_of_mem key hx
    have : (uniqueList (rows.map key)).count (key x) = 1 := by
      rw [count_uniqueList]; simp [hk]
    simp [this]
  · have hcount : rows.count x = 0 := List.count_eq_zero_of_not_mem hx
    simp [hcount]

/-- The groups of `groupsBy` are a permutation of the original rows. -/
theorem perm_flatten_groupsBy {α β : Type} [DecidableEq α] [DecidableEq β]
    (key : α → β) (rows : List α) :
    List.Perm ((groupsBy key rows).flatten) rows := by
  rw [List.perm_iff_count]
  intro a
  exact count_flatten_groupsBy key rows a

/-- Membership in a `groupsBy` group list is membership in the rows. -/
theorem mem_flatten_groupsBy {α β : Type} [DecidableEq α] [DecidableEq β]
    (key : α → β) (rows : List α) (x : α) :
    x ∈ (groupsBy key rows).flatten ↔ x ∈ rows :=
  (perm_flatten_groupsBy key rows).mem_iff

/-- Counting through a per-group filter of a group list. -/
theorem count_flatten_map_filter {α : Type} [DecidableEq α]
    (p : α → Bool) (x : α) :
    ∀ gs : List (List α),
      ((gs.map (fun g => g.filter p)).flatten).count x =
        if p x then (gs.flatten).count x else 0 := by
  intro gs
  induction gs with
  | nil => simp
  | cons g gs ih =>
      simp only [List.map_cons, List.flatten_cons, List.count_append, ih,
        count_filter_decide p g x]
      by_cases hx : p x
      · simp [hx]
      · simp [hx]

theorem count_trainSplit {α β : Type} [DecidableEq α] [DecidableEq β]
    (key : α → β) (draw : α → ℚ) (rows : List α) (x : α) :
    (trainSplit key draw rows).count x =
      if draw x ≤ 85/100 then rows.count x else 0 := by
  unfold trainSplit
  rw [count_flatten_map_filter (fun r => decide (draw r ≤ 85/100)) x
    (groupsBy key rows)]
  by_cases hx : draw x ≤ 85/100
  · simp [hx, count_flatten_groupsBy]
  · simp [hx]

theorem count_testSplit {α β : Type} [DecidableEq α] [DecidableEq β]
    (key : α → β) (draw : α → ℚ) (rows : List α) (x : α) :
    (testSplit key draw rows).count x =
      if draw x ≤ 85/100 then 0 else rows.count x := by
  unfold testSplit
  rw [count_flatten_map_filter (fun r => decide ¬ (draw r ≤ 85/100)) x
    (groupsBy key rows)]
  by_cases hx : draw x ≤ 85/100
  · simp [hx]
  · simp [hx, count_flatten_groupsBy]

theorem perm_trainSplit_append_testSplit {α β : Type} [DecidableEq α]
    [DecidableEq β] (key : α → β) (draw : α → ℚ) (rows : List α) :
    List.Perm (trainSplit key draw rows ++ testSplit key draw rows) rows := by
  rw [List.perm_iff_count]
  intro a
  rw [List.count_append, count_trainSplit, count_testSplit]
  by_cases hx : draw a ≤ 85/100
  · simp [hx]
  · simp [hx]

theorem mem_trainSplit {α β : Type} [DecidableEq α] [DecidableEq β]
    (key : α → β) (draw : α → ℚ) (rows : List α) (x : α) :
    x ∈ trainSplit key draw rows ↔ x ∈ rows ∧ draw x ≤ 85/100 := by
  rw [← List.count_pos_iff, count_trainSplit, ← List.count_pos_iff]
  by_cases hx : draw x ≤ 85/100
  · simp [hx]
  · simp [hx]

theorem mem_testSplit {α β : Type} [DecidableEq α] [DecidableEq β]
    (key : α → β) (draw : α → ℚ) (rows : List α) (x : α) :
    x ∈ testSplit key draw rows ↔ x ∈ rows ∧ ¬ draw x ≤ 85/100 := by
  rw [← List.count_pos_iff, count_testSplit, ← List.count_pos_iff]
  by_cases hx : draw x ≤ 85/100
  · simp [hx]
  · simp [hx]

theorem firstNonzeroIdx_eq_none_iff (l : List Int) :
    firstNonzeroIdx l = none ↔ ∀ z ∈ l, z = 0 := by
  induction l with
  | nil => simp [firstNonzeroIdx]
  | cons z zs ih =>
      by_cases hz : z = 0
      · subst hz
        simp only [firstNonzeroIdx, ne_eq, not_true_eq_false, if_false]
        constructor
        · intro h
          intro w hw
          rcases List.mem_cons.mp hw with hw0 | hw1
          · exact hw0
          · have hnone : firstNonzeroIdx zs = none := by
              cases hfz : firstNonzeroIdx zs with
              | none => rfl
              | some i => rw [hfz] at h; simp at h
            exact (ih.mp hnone) w hw1
        · intro h
          have : firstNonzeroIdx zs = none :=
            ih.mpr (fun w hw => h w (List.mem_cons_of_mem _ hw))
          simp [this]
      · simp only [firstNonzeroIdx, ne_eq, hz, not_false_eq_true, if_true]
        constructor
        · intro h; exact absurd h (by simp)
        · intro h; exact absurd (h z (by simp)) hz

theorem firstNonzeroIdx_spec (l : List Int) (i : Nat)
    (h : firstNonzeroIdx l = some i) :
    i < l.length ∧ (∃ z, l[i]? = some z ∧ z ≠ 0) ∧
      ∀ j, j < i → l[j]? = some 0 := by
  induction l generalizing i with
  | nil => simp [firstNonzeroIdx] at h
  | cons z zs ih =>
      by_cases hz : z = 0
      · subst hz
        simp only [firstNonzeroIdx, ne_eq, not_true_eq_false, if_false] at h
        cases hfz : firstNonzeroIdx zs with
        | none => rw [hfz] at h; simp at h
        | some i' =>
            rw [hfz] at h
            simp only [Option.map_some'] at h
            injection h with h1
            subst h1
            obtain ⟨hlt, ⟨w, hw, hw0⟩, hzero⟩ := ih i' hfz
            refine ⟨by simpa using Nat.succ_lt_succ hlt,
              ⟨w, by simpa using hw, hw0⟩, ?_⟩
            intro j hj
            cases j with
            | zero => simp
            | succ j' => simpa using hzero j' (by omega)
      · simp only [firstNonzeroIdx, ne_eq, hz, not_false_eq_true, if_true] at h
        injection h with h1
        subst h1
        exact ⟨by simp, ⟨z, by simp, hz⟩, fun j hj => by omega⟩

theorem firstNonzeroIdx_isSome_of_exists (l : List Int)
    (h : ∃ z ∈ l, z ≠ 0) : ∃ i, firstNonzeroIdx l = some i := by
  cases hfz : firstNonzeroIdx l with
  | none =>
      obtain ⟨z, hz, hz0⟩ := h
      exact absurd ((firstNonzeroIdx_eq_none_iff l).mp hfz z hz) hz0
  | some i => exact ⟨i, rfl⟩

theorem indexInVocab_eq_none_iff (vocab : List String) (v : String) :
    indexInVocab vocab v = none ↔ v ∉ vocab := by
  induction vocab with
  | nil => simp [indexInVocab]
  | cons w ws ih =>
      by_cases hw : w = v
      · subst hw; simp [indexInVocab]
      · simp only [indexInVocab, hw, if_false, List.mem_cons]
        cases hfz : indexInVocab ws v with
        | none =>
            simp only [Option.map_none', true_iff]
            push_neg
            exact ⟨fun hc => hw hc.symm, (ih.mp hfz)⟩
        | some i =>
            simp only [Option.map_some']
            constructor
            · intro h; cases h
            · intro hne
              exfalso
              have hv : v ∈ ws := by
                by_contra hnotin
                rw [ih.mpr hnotin] at hfz
                cases hfz
              exact hne (Or.inr hv)

theorem indexInVocab_spec (vocab : List String) (v : String) (i : Nat)
    (h : indexInVocab vocab v = some i) : vocab[i]? = some v := by
  induction vocab generalizing i with
  | nil => simp [indexInVocab] at h
  | cons w ws ih =>
      by_cases hw : w = v
      · subst hw
        simp only [indexInVocab, if_true] at h
        injection h with h1
        subst h1
        simp
      · simp only [indexInVocab, hw, if_false] at h
        cases hfz : indexInVocab ws v with
        | none => rw [hfz] at h; simp at h
        | some i' =>
            rw [hfz] at h
            simp only [Option.map_some'] at h
            injection h with h1
            subst h1
            simpa using ih i' hfz

theorem denseApply_length (W : List (List ℚ)) (b v : List ℚ) :
    (denseApply W b v).length = min W.length b.length := by
  simp [denseApply]

theorem crossStep_length (x0 cross : List ℚ) (p : List (List ℚ) × List ℚ)
    (hW : p.1.length = x0.length) (hb : p.2.length = x0.length)
    (hc : cross.length = x0.length) :
    (crossStep x0 cross p).length = x0.length := by
  simp [crossStep, denseApply_length, hW, hb, hc]

theorem foldl_crossStep_length (x0 : List ℚ) :
    ∀ (ps : List (List (List ℚ) × List ℚ)) (init : List ℚ),
      (∀ p ∈ ps, p.1.length = x0.length ∧ p.2.length = x0.length) →
      init.length = x0.length →
      (ps.foldl (crossStep x0) init).length = x0.length := by
  intro ps
  induction ps with
  | nil => intro init _ hinit; simpa using hinit
  | cons p ps ih =>
      intro init hps hinit
      simp only [List.foldl_cons]
      exact ih (crossStep x0 init p)
        (fun q hq => hps q (List.mem_cons_of_mem _ hq))
        (crossStep_length x0 init p (hps p (List.mem_cons_self p ps)).1
          (hps p (List.mem_cons_self p ps)).2 hinit)

theorem crossIter_take_length (x0 : List ℚ)
    (ps : List (List (List ℚ) × List ℚ))
    (hps : ∀ p ∈ ps, p.1.length = x0.length ∧ p.2.length = x0.length)
    (k : Nat) : (crossIter x0 (ps.take k)).length = x0.length :=
  foldl_crossStep_length x0 (ps.take k) x0
    (fun p hp => hps p (List.mem_of_mem_take hp)) rfl

theorem width_crossTensor (V : String → List String) :
    ∀ k, width (crossTensor V k) = width (encode_inputs V true) := by
  intro k
  induction k with
  | zero => rfl
  | succ k ih =>
      simp only [crossTensor, width, ih, Nat.min_self]

theorem reshapeRow_some_parts (r : List Int) (rec : List Cell)
    (h : reshapeRow r = some rec) :
    ∃ wa st lab,
      decodeBlock wilderness_area_values ((r.drop 10).take 4) = some wa ∧
      decodeBlock soil_type_values ((r.drop 14).take 40) = some st ∧
      r[54]? = some lab ∧
      rec = ((r.take 10).map Cell.int) ++
        [Cell.str wa, Cell.str st, Cell.int (lab - 1)] := by
  unfold reshapeRow at h
  cases hwa : decodeBlock wilderness_area_values ((r.drop 10).take 4) with
  | none => rw [hwa] at h; cases h
  | some wa =>
      cases hst : decodeBlock soil_type_values ((r.drop 14).take 40) with
      | none => rw [hwa, hst] at h; cases h
      | some st =>
          cases hlab : r[54]? with
          | none => rw [hwa, hst, hlab] at h; cases h
          | some lab =>
              rw [hwa, hst, hlab] at h
              injection h with h1
              exact ⟨wa, st, lab, rfl, rfl, rfl, h1.symm⟩

theorem reshapeRow_isSome (r : List Int) (h55 : r.length = 55)
    (hwa : ∃ z ∈ (r.drop 10).take 4, z ≠ 0)
    (hst : ∃ z ∈ (r.drop 14).take 40, z ≠ 0) :
    ∃ rec, reshapeRow r = some rec := by
  obtain ⟨i, hi⟩ := firstNonzeroIdx_isSome_of_exists _ hwa
  obtain ⟨j, hj⟩ := firstNonzeroIdx_isSome_of_exists _ hst
  have hi4 : i < 4 := by
    have := (firstNonzeroIdx_spec _ _ hi).1
    simpa [h55] using this
  have hj40 : j < 40 := by
    have := (firstNonzeroIdx_spec _ _ hj).1
    simpa [h55] using this
  have hwadec : ∃ wa, decodeBlock wilderness_area_values
      ((r.drop 10).take 4) = some wa := by
    refine ⟨wilderness_area_values.get ⟨i, by simp [wilderness_area_values]; omega⟩, ?_⟩
    simp only [decodeBlock, hi, Option.some_bind]
    rw [List.getElem?_eq_getElem (by simp [wilderness_area_values]; omega)]
    simp [List.get_eq_getElem]
  have hstdec : ∃ st, decodeBlock soil_type_values
      ((r.drop 14).take 40) = some st := by
    refine ⟨soil_type_values.get ⟨j, by simp [soil_type_values]; omega⟩, ?_⟩
    simp only [decodeBlock, hj, Option.some_bind]
    rw [List.getElem?_eq_getElem (by simp [soil_type_values]; omega)]
    simp [List.get_eq_getElem]
  obtain ⟨wa, hwa'⟩ := hwadec
  obtain ⟨st, hst'⟩ := hstdec
  have hlab : r[54]? = some (r.get ⟨54, by omega⟩) := by
    rw [List.getElem?_eq_getElem (by omega)]
    simp [List.get_eq_getElem]
  refine ⟨((r.take 10).map Cell.int) ++
      [Cell.str wa, Cell.str st, Cell.int (r.get ⟨54, by omega⟩ - 1)], ?_⟩
  unfold reshapeRow
  rw [hwa', hst', hlab]

/-! ## Claim theorems -/

/-- C8: `run_experiment` compiles with an Adam optimizer and sparse
categorical cross-entropy loss, then fits on the training dataset, then
evaluates on the test dataset, in that order; the only data-carrying
external output is the printed test accuracy, and no model artifact is
persisted. -/
theorem C8_run_experiment_trace :
    run_experiment.findIdx? isCompile = some 0 ∧
    run_experiment.findIdx? isFit = some 4 ∧
    run_experiment.findIdx? isEvaluate = some 6 ∧
    (0:Nat) < 4 ∧ (4:Nat) < 6 ∧
    run_experiment.filter isCompile =
      [Effect.compile (Optimizer.adam learning_rate)
        Loss.sparseCategoricalCrossentropy] ∧
    run_experiment.filter isFit = [Effect.fit train_data_file num_epochs] ∧
    run_experiment.filter isEvaluate = [Effect.evaluate test_data_file] ∧
    run_experiment.filter isSaveModel = [] ∧
    run_experiment.filter emitsValue = [Effect.printAccuracy] :=
  ⟨rfl, rfl, rfl, by decide, by decide, rfl, rfl, rfl, rfl, rfl⟩

/-- C10: all three model constructors end in a
`Dense(NUM_CLASSES, activation="softmax")` layer with `NUM_CLASSES = 7`
units, the models' output width is 7, and softmax of any logit vector is
a probability vector over those 7 classes. -/
theorem C10_models_end_in_softmax_seven :
    NUM_CLASSES = 7 ∧
    (∀ V, ∃ t, create_baseline_model V =
        Tensor.dense NUM_CLASSES Activation.softmax t) ∧
    (∀ V, ∃ t, create_wide_and_deep_model V =
        Tensor.dense NUM_CLASSES Activation.softmax t) ∧
    (∀ V, ∃ t, create_deep_and_cross_model V =
        Tensor.dense NUM_CLASSES Activation.softmax t) ∧
    (∀ V, width (create_baseline_model V) = 7 ∧
        width (create_wide_and_deep_model V) = 7 ∧
        width (create_deep_and_cross_model V) = 7) ∧
    (∀ v : Fin NUM_CLASSES → ℝ,
        (∀ i, 0 ≤ softmax v i) ∧
        Finset.univ.sum (softmax v) = 1) := by
  have hpos : ∀ v : Fin NUM_CLASSES → ℝ,
      0 < Finset.univ.sum (fun j => Real.exp (v j)) := by
    intro v
    apply Finset.sum_pos (fun j _ => Real.exp_pos (v j))
    exact ⟨⟨0, by decide⟩, Finset.mem_univ _⟩
  refine ⟨rfl, fun V => ⟨_, rfl⟩, fun V => ⟨_, rfl⟩, fun V => ⟨_, rfl⟩,
    fun V => ⟨rfl, rfl, rfl⟩, fun v => ⟨?_, ?_⟩⟩
  · intro i
    exact div_nonneg (Real.exp_pos (v i)).le (hpos v).le
  · unfold softmax
    rw [← Finset.sum_div]
    exact div_self (ne_of_gt (hpos v))

/-- C7: the wide branch of `create_wide_and_deep_model` is built from the
sparse one-hot encoding (no embeddings) and contains no Dense layer, no
ReLU and no Dropout — only one BatchNormalization, an affine map at
inference; the deep branch is built from the embedded encoding and stacks
`len(hidden_units) = 2` Dense+ReLU blocks; both branches read every
feature of `FEATURE_NAMES`. -/
theorem C7_wide_linear_deep_stacked (V : String → List String) :
    countDense (wideBranch V) = 0 ∧
    countRelu (wideBranch V) = 0 ∧
    countDropout (wideBranch V) = 0 ∧
    countEmbed (wideBranch V) = 0 ∧
    countBatchNorm (wideBranch V) = 1 ∧
    countOnehot (wideBranch V) = 2 ∧
    countDense (deepBranch V) = hidden_units.length ∧
    countRelu (deepBranch V) = hidden_units.length ∧
    hidden_units.length = 2 ∧
    countEmbed (deepBranch V) = 2 ∧
    countOnehot (deepBranch V) = 0 ∧
    inputsOf (wideBranch V) = FEATURE_NAMES ∧
    inputsOf (deepBranch V) = FEATURE_NAMES :=
  ⟨rfl, rfl, rfl, rfl, rfl, rfl, rfl, rfl, rfl, rfl, rfl, rfl, rfl⟩

/-- With the `encode_inputs` configuration (no mask token, zero OOV
indices) the lookup is exactly the vocabulary index. -/
theorem stringLookupIndex_encode (vocab : List String) (v : String) :
    stringLookupIndex (encodeLookupConfig vocab) v = indexInVocab vocab v := by
  unfold stringLookupIndex encodeLookupConfig
  simp only [List.nil_append]
  cases hidx : indexInVocab vocab v with
  | none => simp [hidx]
  | some i => simp [hidx]

/-- C5: the `StringLookup` built by `encode_inputs` has no mask token and
zero out-of-vocabulary indices, so lookup is defined exactly on the fixed
vocabulary: an unseen value has no encoding (no OOV bucket or fallback),
and an in-vocabulary value maps to its index. -/
theorem C5_no_oov_fallback (vocab : List String) (v : String) :
    (encodeLookupConfig vocab).mask_token = none ∧
    (encodeLookupConfig vocab).num_oov_indices = 0 ∧
    (stringLookupIndex (encodeLookupConfig vocab) v = none ↔ v ∉ vocab) ∧
    (∀ i, stringLookupIndex (encodeLookupConfig vocab) v = some i →
      vocab[i]? = some v) := by
  refine ⟨rfl, rfl, ?_, ?_⟩
  · rw [stringLookupIndex_encode]
    exact indexInVocab_eq_none_iff vocab v
  · intro i h
    rw [stringLookupIndex_encode] at h
    exact indexInVocab_spec vocab v i h

/-- C5 witness: a concrete vocabulary with one unseen and one seen
value. -/
theorem C5_no_oov_fallback_witness :
    stringLookupIndex (encodeLookupConfig ["a", "b"]) "c" = none ∧
    (["a", "b"] : List String)[1]? = some "b" :=
  ⟨(C5_no_oov_fallback ["a", "b"] "c").2.2.1.mpr (by decide),
   (C5_no_oov_fallback ["a", "b"] "b").2.2.2 1 (by decide)⟩

/-- C9: decoding a binary-encoded block looks the index of the first
nonzero entry up in the vocabulary; an all-zero block decodes to nothing
(the Python indexing raises), and when several entries are nonzero only
the first one is used (all earlier entries are zero). -/
theorem C9_decode_selects_first_nonzero (vocab : List String)
    (block : List Int) :
    soil_type_values.length = 40 ∧
    wilderness_area_values.length = 4 ∧
    ((∀ z ∈ block, z = 0) → decodeBlock vocab block = none) ∧
    (∀ i, firstNonzeroIdx block = some i →
      decodeBlock vocab block = vocab[i]? ∧
      (∃ z, block[i]? = some z ∧ z ≠ 0) ∧
      (∀ j, j < i → block[j]? = some 0)) ∧
    ((∃ z ∈ block, z ≠ 0) → ∃ i, firstNonzeroIdx block = some i) := by
  refine ⟨by simp [soil_type_values], by simp [wilderness_area_values],
    ?_, ?_, firstNonzeroIdx_isSome_of_exists block⟩
  · intro hz
    unfold decodeBlock
    rw [(firstNonzeroIdx_eq_none_iff block).mpr hz]
    rfl
  · intro i hi
    obtain ⟨_, hex, hzero⟩ := firstNonzeroIdx_spec block i hi
    exact ⟨by unfold decodeBlock; rw [hi]; rfl, hex, hzero⟩

/-- C9 witness: block `[0, 5, 3]` has two nonzero entries; the decode uses
the first (index 1) and yields `soil_type_2`. -/
theorem C9_decode_selects_first_nonzero_witness :
    decodeBlock soil_type_values [0, 5, 3] = some "soil_type_2" ∧
    firstNonzeroIdx [(0:Int), 5, 3] = some 1 ∧
    decodeBlock soil_type_values [0, 0, 0, 0] = none := by
  have h := (C9_decode_selects_first_nonzero soil_type_values
    [0, 5, 3]).2.2.2.1 1 (by decide)
  have hz := (C9_decode_selects_first_nonzero soil_type_values
    [0, 0, 0, 0]).2.2.1 (by decide)
  exact ⟨by rw [h.1]; decide, by decide, hz⟩

/-- C1: the cross branch is the elementwise recurrence `cross_0 = x0`,
`cross_{k+1} = x0 * Dense_k(cross_k) + cross_k`, iterated exactly
`len(hidden_units) = 2` times; each `Dense_k` has `units =
cross_k.shape[-1]`, and every `cross_k` — and the final cross output —
keeps the last dimension of `x0`. -/
theorem C1_cross_recurrence (V : String → List String) (x0 : List ℚ)
    (ps : List (List (List ℚ) × List ℚ))
    (hshape : ∀ p ∈ ps, p.1.length = x0.length ∧ p.2.length = x0.length)
    (hcount : ps.length = hidden_units.length) :
    hidden_units.length = 2 ∧
    ps.length = 2 ∧
    (∀ k, (crossIter x0 (ps.take k)).length = x0.length) ∧
    (crossIter x0 ps).length = x0.length ∧
    (∀ k, crossTensor V (k + 1) =
        Tensor.add
          (Tensor.mul (encode_inputs V true)
            (Tensor.dense (width (crossTensor V k)) Activation.linear
              (crossTensor V k)))
          (crossTensor V k)) ∧
    (∀ k, width (crossTensor V k) = width (encode_inputs V true)) ∧
    crossBranch V = Tensor.batchNorm (crossTensor V hidden_units.length) ∧
    width (crossBranch V) = width (encode_inputs V true) := by
  refine ⟨rfl, hcount, fun k => crossIter_take_length x0 ps hshape k,
    foldl_crossStep_length x0 ps x0 hshape rfl,
    fun k => rfl, width_crossTensor V, rfl, ?_⟩
  exact width_crossTensor V hidden_units.length

/-- C1 witness: a concrete two-dimensional `x0` with two concrete Dense
parameter pairs; the final cross output keeps dimension 2. -/
theorem C1_cross_recurrence_witness :
    (crossIter [(1:ℚ), 2]
      [([[1, 0], [0, 1]], [0, 0]), ([[2, 3], [4, 5]], [6, 7])]).length = 2 :=
  (C1_cross_recurrence (fun _ => []) [(1:ℚ), 2]
    [([[1, 0], [0, 1]], [0, 0]), ([[2, 3], [4, 5]], [6, 7])]
    (by decide) rfl).2.2.2.1

/-- C4: the `Cover_Type`-grouped split assigns a row to the train side
exactly when its uniform draw is `<= 0.85` and to the test side otherwise;
train and test are jointly a permutation of the data, and every row lands
in exactly one of the two. -/
theorem C4_split_partition (rows : List DrawnRow) :
    List.Perm (trainRows rows ++ testRows rows) rows ∧
    (∀ p, p ∈ trainRows rows ↔ p ∈ rows ∧ p.2 ≤ 85/100) ∧
    (∀ p, p ∈ testRows rows ↔ p ∈ rows ∧ ¬ p.2 ≤ 85/100) ∧
    (∀ p ∈ rows, (p ∈ trainRows rows ∧ p ∉ testRows rows) ∨
      (p ∈ testRows rows ∧ p ∉ trainRows rows)) := by
  refine ⟨perm_trainSplit_append_testSplit _ _ rows,
    fun p => mem_trainSplit _ _ rows p,
    fun p => mem_testSplit _ _ rows p, ?_⟩
  intro p hp
  by_cases hd : p.2 ≤ 85/100
  · exact Or.inl ⟨(mem_trainSplit _ _ rows p).mpr ⟨hp, hd⟩,
      fun hc => ((mem_testSplit _ _ rows p).mp hc).2 hd⟩
  · exact Or.inr ⟨(mem_testSplit _ _ rows p).mpr ⟨hp, hd⟩,
      fun hc => hd ((mem_trainSplit _ _ rows p).mp hc).2⟩

/-- C4 witness: the partition on the concrete two-row drawn dataset. -/
theorem C4_split_partition_witness :
    List.Perm (trainRows exSplitData ++ testRows exSplitData) exSplitData :=
  (C4_split_partition exSplitData).1

/-- C2 counterexample: the vocabulary of cell 14 is computed from `data`,
the full reshaped dataframe, not from `train_data`.  On a concrete split
outcome where the only `soil_type_2` row draws 9/10 (test side), the
vocabulary contains `soil_type_2` while the training column does not, so
the vocabulary is not the set of distinct values of the training data. -/
theorem C2_vocab_not_from_training_counterexample :
    ¬ (∀ v, v ∈ CATEGORICAL_FEATURES_WITH_VOCABULARY
        (soilColumn (exSplitData.map Prod.fst))
        (areaColumn (exSplitData.map Prod.fst)) "Soil_Type" ↔
        v ∈ soilColumn ((trainRows exSplitData).map Prod.fst)) := by
  intro h
  have hcol : soilColumn (exSplitData.map Prod.fst) =
      ["soil_type_1", "soil_type_2"] := rfl
  have hvocab : "soil_type_2" ∈ CATEGORICAL_FEATURES_WITH_VOCABULARY
      (soilColumn (exSplitData.map Prod.fst))
      (areaColumn (exSplitData.map Prod.fst)) "Soil_Type" := by
    unfold CATEGORICAL_FEATURES_WITH_VOCABULARY
    rw [if_pos rfl, hcol]
    exact (mem_uniqueList _ _).mpr (by decide)
  have h2 := (h "soil_type_2").mp hvocab
  obtain ⟨rec, hrecmem, hcell⟩ := List.mem_map.mp h2
  obtain ⟨p, hpmem, rfl⟩ := List.mem_map.mp hrecmem
  unfold trainRows at hpmem
  have hp := (mem_trainSplit (fun q => coverTypeOf q.1) (fun q => q.2)
    exSplitData p).mp hpmem
  have hcases : p = (exRecord "soil_type_1", 1/2) ∨
      p = (exRecord "soil_type_2", 9/10) := by
    simpa [exSplitData] using hp.1
  rcases hcases with hp1 | hp2
  · subst hp1
    exact absurd hcell (by decide)
  · subst hp2
    have := hp.2
    norm_num at this

/-- C2 (amended): for each categorical feature, the fixed vocabulary is a
duplicate-free list whose members are exactly the distinct string values
of the corresponding column of the full reshaped dataframe `data`,
computed once — before the train/test split, not from the training split
alone. -/
theorem C2_vocab_from_full_data (soilCol areaCol : List String)
    (name : String) (h : name ∈ CATEGORICAL_FEATURE_NAMES) :
    (CATEGORICAL_FEATURES_WITH_VOCABULARY soilCol areaCol name).Nodup ∧
    ∀ v, v ∈ CATEGORICAL_FEATURES_WITH_VOCABULARY soilCol areaCol name ↔
      v ∈ (if name = "Soil_Type" then soilCol else areaCol) := by
  have hname : name = "Soil_Type" ∨ name = "Wilderness_Area" := by
    simpa [CATEGORICAL_FEATURE_NAMES] using h
  rcases hname with hn | hn
  · subst hn
    unfold CATEGORICAL_FEATURES_WITH_VOCABULARY
    rw [if_pos rfl, if_pos rfl]
    exact ⟨nodup_uniqueList soilCol, fun v => mem_uniqueList v soilCol⟩
  · subst hn
    unfold CATEGORICAL_FEATURES_WITH_VOCABULARY
    rw [if_neg (by decide), if_pos rfl, if_neg (by decide)]
    exact ⟨nodup_uniqueList areaCol, fun v => mem_uniqueList v areaCol⟩

/-- C2 witness: concrete columns; a value occurring twice in the full
column is in the vocabulary once. -/
theorem C2_vocab_from_full_data_witness :
    ("Soil_Type" ∈ CATEGORICAL_FEATURE_NAMES) ∧
    ("a" ∈ CATEGORICAL_FEATURES_WITH_VOCABULARY ["a", "b", "a"] ["c"]
      "Soil_Type") :=
  ⟨by decide,
   ((C2_vocab_from_full_data ["a", "b", "a"] ["c"] "Soil_Type"
      (by decide)).2 "a").mpr (by decide)⟩

/-- C3: a raw table of 506,011 decodable 55-column rows with raw labels
in 1..7 reshapes to 506,011 records of exactly 13 columns in the fixed
`CSV_HEADER` order (10 numeric features, then `Wilderness_Area`,
`Soil_Type`, `Cover_Type`), and every label is remapped from `v` to
`v - 1`, landing in `[0, 6]`. -/
theorem C3_reshaped_shape (raw : List (List Int))
    (hcount : raw.length = 506011)
    (hcols : ∀ r ∈ raw, r.length = 55)
    (hwa : ∀ r ∈ raw, ∃ z ∈ (r.drop 10).take 4, z ≠ 0)
    (hst : ∀ r ∈ raw, ∃ z ∈ (r.drop 14).take 40, z ≠ 0)
    (hlab : ∀ r ∈ raw, ∀ v, r[54]? = some v → 1 ≤ v ∧ v ≤ 7) :
    (reshapeTable raw).length = 506011 ∧
    CSV_HEADER.length = 13 ∧
    List.Perm (CSV_HEADER.take 10) NUMERIC_FEATURE_NAMES ∧
    CSV_HEADER.drop 10 = ["Wilderness_Area", "Soil_Type", "Cover_Type"] ∧
    (∀ o ∈ reshapeTable raw, ∃ rec, o = some rec ∧ rec.length = 13) ∧
    (∀ r ∈ raw, ∀ rec, reshapeRow r = some rec →
      ∀ v, r[54]? = some v →
        rec[12]? = some (Cell.int (v - 1)) ∧ 0 ≤ v - 1 ∧ v - 1 ≤ 6) := by
  refine ⟨by simp [reshapeTable, hcount], by decide, by decide, by decide,
    ?_, ?_⟩
  · intro o ho
    obtain ⟨r, hr, rfl⟩ := List.mem_map.mp ho
    obtain ⟨rec, hrec⟩ := reshapeRow_isSome r (hcols r hr) (hwa r hr)
      (hst r hr)
    refine ⟨rec, hrec.symm ▸ rfl, ?_⟩
    obtain ⟨wa, st, lab, _, _, _, hrecEq⟩ := reshapeRow_some_parts r rec hrec
    subst hrecEq
    simp [hcols r hr]
  · intro r hr rec hrec v hv
    obtain ⟨wa, st, lab, _, _, hlab54, hrecEq⟩ :=
      reshapeRow_some_parts r rec hrec
    have hvl : lab = v := Option.some.inj (hlab54.symm.trans hv)
    subst hvl
    subst hrecEq
    have hlen : ((r.take 10).map Cell.int).length = 10 := by
      simp [hcols r hr]
    refine ⟨?_, ?_⟩
    · rw [List.getElem?_append_right (by rw [hlen]; omega)]
      rw [hlen]
      rfl
    · have := hlab r hr lab hv
      omega

/-- C3 witness: a table of 506,011 copies of the sample raw row. -/
theorem C3_reshaped_shape_witness :
    (reshapeTable (List.replicate 506011 c3row)).length = 506011 :=
  (C3_reshaped_shape (List.replicate 506011 c3row)
    (List.length_replicate 506011 c3row)
    (fun r hr => by rw [List.eq_of_mem_replicate hr]; decide)
    (fun r hr => by rw [List.eq_of_mem_replicate hr]; decide)
    (fun r hr => by rw [List.eq_of_mem_replicate hr]; decide)
    (fun r hr v hv => by
      rw [List.eq_of_mem_replicate hr] at hv
      have h5 : c3row[54]? = some 5 := by decide
      rw [h5] at hv
      injection hv with h1
      omega)).1

/-- C6: the raw input is a headerless CSV from one fixed URL; on a
55-column row the reshaping slices tile the row exactly — columns 0..9
become the ten numeric cells, columns 10..13 are the wilderness-area
one-hot block, columns 14..53 the soil-type block, and column 54 (the
single remaining column) becomes the label. -/
theorem C6_column_consumption (r : List Int) (h55 : r.length = 55) :
    data_url =
      "https://archive.ics.uci.edu/ml/machine-learning-databases/covtype/covtype.data.gz" ∧
    raw_read_has_header = false ∧
    r.take 10 ++ (r.drop 10).take 4 ++ (r.drop 14).take 40 ++ r.drop 54
      = r ∧
    (r.drop 54).length = 1 ∧
    (∀ i, i < 4 → ((r.drop 10).take 4)[i]? = r[10 + i]?) ∧
    (∀ i, i < 40 → ((r.drop 14).take 40)[i]? = r[14 + i]?) ∧
    (∀ rec, reshapeRow r = some rec →
      (∀ i, i < 10 → rec[i]? = (r[i]?).map Cell.int) ∧
      rec[10]? = (decodeBlock wilderness_area_values
        ((r.drop 10).take 4)).map Cell.str ∧
      rec[11]? = (decodeBlock soil_type_values
        ((r.drop 14).take 40)).map Cell.str ∧
      (∀ v, r[54]? = some v → rec[12]? = some (Cell.int (v - 1)))) := by
  have hd14 : (r.drop 10).drop 4 = r.drop 14 := by rw [List.drop_drop]
  have hd54 : (r.drop 14).drop 40 = r.drop 54 := by rw [List.drop_drop]
  refine ⟨rfl, rfl, ?_, by simp [h55], ?_, ?_, ?_⟩
  · rw [List.append_assoc, List.append_assoc, ← hd54,
      List.take_append_drop, ← hd14, List.take_append_drop]
    exact List.take_append_drop 10 r
  · intro i hi
    rw [List.getElem?_take_of_lt hi, List.getElem?_drop]
  · intro i hi
    rw [List.getElem?_take_of_lt hi, List.getElem?_drop]
  · intro rec hrec
    obtain ⟨wa, st, lab, hwa', hst', hlab', hrecEq⟩ :=
      reshapeRow_some_parts r rec hrec
    subst hrecEq
    have hlen : (List.map Cell.int (r.take 10)).length = 10 := by
      simp [h55]
    refine ⟨?_, ?_, ?_, ?_⟩
    · intro i hi
      rw [List.getElem?_append_left (by rw [hlen]; omega),
        List.getElem?_map, List.getElem?_take_of_lt hi]
    · rw [List.getElem?_append_right hlen.le, hlen, hwa']
      rfl
    · rw [List.getElem?_append_right (by rw [hlen]; omega), hlen, hst']
      rfl
    · intro v hv
      have hvl : lab = v := Option.some.inj (hlab'.symm.trans hv)
      subst hvl
      rw [List.getElem?_append_right (by rw [hlen]; omega), hlen]
      rfl

/-- C6 witness: the sample raw row has 55 columns and its reshape reads
the stated column ranges. -/
theorem C6_column_consumption_witness :
    c3row.take 10 ++ (c3row.drop 10).take 4 ++ (c3row.drop 14).take 40 ++
      c3row.drop 54 = c3row :=
  (C6_column_consumption c3row (by decide)).2.2.1

end WideDeepCross
